import Mathlib

/-!
Shallow embedding of the VU-LMS todo-automation pipeline
(activity ingestion/dedup, notification scheduling, dispatch cycle,
retry sweep, short-horizon delivery set), translated from:

  - src/app/api/scrape/route.js   (POST handler: past/future split, dedup
    loop, getUpcomingActivities)
  - src/lib/scheduler.js          (NotificationScheduler: scheduleNotifications,
    processPendingNotifications, retryFailedNotifications)
  - src/models/Activity.js        (activitySchema, Activity.generateHash)
  - src/models/Notification.js    (notificationSchema, markAsSent, markAsFailed,
    unique index on (activityId, notificationType))
  - src/models/User.js            (userSchema)

Conventions of the embedding:
  * JavaScript `Date` values are modelled as integer millisecond timestamps
    (UTC; the source runs date arithmetic in the server's local zone, which
    this embedding identifies with UTC).
  * MongoDB ObjectIds become `Nat` identifiers; `toString` of the id stands
    for the ObjectId's string form used in the activity hash.
  * The MongoDB store is a list of documents; `save()` on a fetched document
    writes it back by its id; a unique-index violation on insert is modelled
    as the insert returning `none` (the E11000 error that the caller catches).
  * Asynchronous sequential `await` code becomes explicit state passing.
-/

namespace VuLms

/-- One day in milliseconds (86 400 000), the unit used by the JS `Date`
arithmetic (`setDate(getDate() ± k)` under the UTC identification). -/
def oneDayMs : Int := 86400000

/-- `setHours(0,0,0,0)`: floor a millisecond timestamp to the start of its
day.  `%` on `Int` is interpreted so that the result is the flooring
multiple for the nonnegative timestamps the system works with. -/
def startOfDay (t : Int) : Int := t - t % oneDayMs

/-- Day number of a timestamp (days since the Unix epoch). -/
def dayNumber (t : Int) : Int := startOfDay t / oneDayMs

/-- Civil-calendar conversion: from a day number (days since 1970-01-01)
to `(year, month 1..12, day 1..31)` in the proleptic Gregorian calendar —
the calendar JS `Date.getMonth/getFullYear` computes (UTC identification).
Standard days-to-civil algorithm. -/
def civilFromDays (z0 : Int) : Int × Int × Int :=
  let z := z0 + 719468
  let era := (if 0 ≤ z then z else z - 146096) / 146097
  let doe := z - era * 146097
  let yoe := (doe - doe / 1460 + doe / 36524 - doe / 146096) / 365
  let y := yoe + era * 400
  let doy := doe - (365 * yoe + yoe / 4 - yoe / 100)
  let mp := (5 * doy + 2) / 153
  let d := doy - (153 * mp + 2) / 5 + 1
  let m := mp + (if mp < 10 then 3 else -9)
  (y + (if m ≤ 2 then 1 else 0), m, d)

/-- JS `getFullYear()` of a timestamp. -/
def getFullYear (t : Int) : Int := (civilFromDays (dayNumber t)).1

/-- JS `getMonth()` of a timestamp: 0-based month (0 = January). -/
def getMonth (t : Int) : Int := (civilFromDays (dayNumber t)).2.1 - 1

/-! ## Activity hash (src/models/Activity.js, `generateHash`)

`generateHash` computes `sha256(userId + "|" + courseCode + "|" + title
+ "|" + dueDate)`.  SHA-256 is a fixed deterministic function of its input
string, so identities coincide whenever the pre-image strings coincide;
the embedding works with the pre-image string (`hashData`), which is what
the digest is a deterministic function of. -/

/-- The `|`-joined pre-image string fed to SHA-256 by `generateHash`:
`` `${userId}|${courseCode}|${title}|${dueDate}` ``. -/
def hashData (userId courseCode title dueDate : String) : String :=
  userId ++ "|" ++ courseCode ++ "|" ++ title ++ "|" ++ dueDate

/-- `Activity.generateHash(userId, courseCode, title, dueDate)` — the
content identity of an activity, as a deterministic function of the
SHA-256 pre-image. -/
def generateHash (userId : Nat) (courseCode title : String) (dueDate : Int) : String :=
  hashData (toString userId) courseCode title (toString dueDate)

/-! ## Data model (src/models/User.js, Activity.js, Notification.js) -/

/-- A `User` document (student): credentials, WhatsApp destination,
active flag. -/
structure User where
  uid : Nat
  username : String
  whatsapp : String
  isActive : Bool
deriving Repr, DecidableEq

/-- An `Activity` document as persisted by the scrape route. -/
structure Activity where
  aid : Nat
  userId : Nat
  courseCode : String
  activityType : String
  title : String
  startDate : Option Int
  dueDate : Int
  link : String
  activityHash : String
deriving Repr, DecidableEq

/-- `notificationType` enumeration: `'start' | 'reminder'`. -/
inductive NotifType
  | start
  | reminder
deriving Repr, DecidableEq

/-- `status` enumeration: `'pending' | 'sent' | 'failed'`. -/
inductive NStatus
  | pending
  | sent
  | failed
deriving Repr, DecidableEq

/-- A `Notification` document. -/
structure Notification where
  nid : Nat
  activityId : Nat
  userId : Nat
  notificationType : NotifType
  scheduledFor : Int
  sentAt : Option Int
  status : NStatus
  error : Option String
  attempts : Nat
deriving Repr, DecidableEq

/-- `notificationSchema.methods.markAsSent`: status := sent,
sentAt := now. -/
def markAsSent (now : Int) (n : Notification) : Notification :=
  { n with status := NStatus.sent, sentAt := some now }

/-- `notificationSchema.methods.markAsFailed(errorMessage)`:
status := failed, error := message, attempts += 1. -/
def markAsFailed (msg : String) (n : Notification) : Notification :=
  { n with status := NStatus.failed, error := some msg, attempts := n.attempts + 1 }

/-! ## Raw scraped activities (input shape of the scrape route loop) -/

/-- A raw activity as produced by the scraper/validator:
`{course_code, activity_type, title, start_date?, due_date, link}`.
Dates already parsed to timestamps (`new Date(...)`); a missing or
unparseable due date is `none`. -/
structure RawActivity where
  course_code : String
  activity_type : String
  title : String
  start_date : Option Int
  due_date : Option Int
  link : String
deriving Repr, DecidableEq

/-! ## Ingestion (src/app/api/scrape/route.js, per-activity loop body)

The route computes `now = new Date(); now.setHours(0,0,0,0)` once, then
for each raw activity: parses dates, classifies `isPast = !dueDate ||
dueDate < now`, skips past activities, otherwise computes the hash,
looks the hash up, and creates the Activity (scheduling notifications
for a fresh one) only when no document with that hash exists.  Mongoose
`trim`/`uppercase` field options apply on save. -/

/-- Outcome of ingesting one raw activity. -/
inductive IngestResult
  | skippedPast
  | skippedDuplicate (a : Activity)
  | created (a : Activity)
deriving Repr, DecidableEq

/-- Number of stored activities carrying a given content identity. -/
def countHash (store : List Activity) (h : String) : Nat :=
  (store.filter (fun a => a.activityHash == h)).length

/-- One iteration of the route's per-activity loop for user `user` at
ingestion instant `t` (milliseconds): the past filter compares the due
date against `startOfDay t`, then the hash-dedup insert runs.  `freshAid`
is the ObjectId minted for a newly created document. -/
def ingestActivity (t : Int) (user : User) (raw : RawActivity)
    (store : List Activity) (freshAid : Nat) : List Activity × IngestResult :=
  let today := startOfDay t
  match raw.due_date with
  | none => (store, IngestResult.skippedPast)
  | some due =>
    if due < today then (store, IngestResult.skippedPast)
    else
      let h := generateHash user.uid raw.course_code raw.title due
      match store.find? (fun a => a.activityHash == h) with
      | some a => (store, IngestResult.skippedDuplicate a)
      | none =>
        let a : Activity :=
          { aid := freshAid
            userId := user.uid
            courseCode := raw.course_code.toUpper
            activityType := raw.activity_type
            title := raw.title.trim
            startDate := raw.start_date
            dueDate := due
            link := raw.link
            activityHash := h }
        (store ++ [a], IngestResult.created a)

/-! ## Short-horizon delivery set (route.js, `getUpcomingActivities`) -/

/-- Due-date sort key used by the final `.sort((a, b) => new
Date(a.due_date) - new Date(b.due_date))` (all surviving entries have a
due date, so the default is never read). -/
def dueKey (a : RawActivity) : Int := a.due_date.getD 0

/-- `getUpcomingActivities(activities)` at instant `t`: keep the
activities with a due date that, normalized to noon, lies between the
start of today and the end of the 7th day from today AND falls in the
current calendar month; sort ascending by due date. -/
def getUpcomingActivities (t : Int) (activities : List RawActivity) : List RawActivity :=
  let now := startOfDay t
  let sevenDaysLater := now + 7 * oneDayMs + (oneDayMs - 1)
  let currentMonth := getMonth now
  let currentYear := getFullYear now
  (activities.filter (fun a =>
    match a.due_date with
    | none => false
    | some d =>
      let dueDate := startOfDay d + 12 * 3600000
      let isInCurrentMonth :=
        getFullYear dueDate == currentYear && getMonth dueDate == currentMonth
      let isWithin7Days := decide (now ≤ dueDate) && decide (dueDate ≤ sevenDaysLater)
      isInCurrentMonth && isWithin7Days)).mergeSort
    (fun a b => dueKey a ≤ dueKey b)

/-! ## Notification scheduling (src/lib/scheduler.js, `scheduleNotifications`)

`Notification.create` is subject to the unique index
`{activityId: 1, notificationType: 1}` (src/models/Notification.js);
a violation raises E11000 (`error.code === 11000`), which
`scheduleNotifications` catches and treats as already-scheduled. -/

/-- `Notification.create` under the unique `(activityId,
notificationType)` index: returns the updated store and the created
document, or `none` (the caught E11000 duplicate) leaving the store
unchanged. -/
def notifCreate (store : List Notification) (n : Notification) :
    List Notification × Option Notification :=
  if store.any (fun m =>
      m.activityId == n.activityId && m.notificationType == n.notificationType) then
    (store, none)
  else
    (store ++ [n], some n)

/-- `scheduleNotifications(activity)` at instant `now`: attempt a
`start`-typed notification when the activity has a future start date,
then a `reminder`-typed one scheduled a day before the due date when
that instant is still in the future; duplicate-key collisions are benign
no-ops.  Returns the updated store and the list of notifications
actually created (the function's return value).  `fresh` mints ObjectIds
for new documents. -/
def scheduleNotifications (now : Int) (fresh : Nat) (activity : Activity)
    (store : List Notification) : List Notification × List Notification :=
  let step1 :=
    match activity.startDate with
    | some s =>
      if now < s then
        notifCreate store
          { nid := fresh
            activityId := activity.aid
            userId := activity.userId
            notificationType := NotifType.start
            scheduledFor := s
            sentAt := none
            status := NStatus.pending
            error := none
            attempts := 0 }
      else (store, none)
    | none => (store, none)
  let store1 := step1.1
  let created1 := step1.2.toList
  let reminderDate := activity.dueDate - oneDayMs
  let step2 :=
    if now < reminderDate then
      notifCreate store1
        { nid := fresh + 1
          activityId := activity.aid
          userId := activity.userId
          notificationType := NotifType.reminder
          scheduledFor := reminderDate
          sentAt := none
          status := NStatus.pending
          error := none
          attempts := 0 }
    else (store1, none)
  (step2.1, created1 ++ step2.2.toList)

/-! ## Dispatch cycle (scheduler.js, `processPendingNotifications`) -/

/-- Aggregate counts returned by a dispatch cycle. -/
structure CycleResult where
  processed : Nat
  sent : Nat
  failed : Nat
deriving Repr, DecidableEq

/-- Observable events of one dispatch cycle, in order: a WhatsApp
`sendMessage` call (the delivery attempt), its outcome, the
inactive-user skip, and the fixed 2-second `setTimeout` pause. -/
inductive Ev
  | sendAttempt (nid : Nat)
  | delivered (nid : Nat)
  | deliveryFailed (nid : Nat)
  | skippedInactive (nid : Nat)
  | delay
deriving Repr, DecidableEq

/-- `document.save()`: write a fetched-and-mutated document back into the
store by its id. -/
def saveNotif (store : List Notification) (id : Nat) (v : Notification) :
    List Notification :=
  store.map (fun m => if m.nid == id then v else m)

/-- The `for (const notification of pendingNotifications)` loop of
`processPendingNotifications`.  `ready` is the WhatsApp client readiness
(`whatsappClient.isClientReady()`, constant over the cycle), `users`
resolves the populated `userId` reference, and `sendResult n = none`
means `sendMessage` succeeded while `some msg` means it threw `msg`.
Returns the updated store, the `sent` and `failed` counters, and the
event trace. -/
def processList (ready : Bool) (users : Nat → User)
    (sendResult : Notification → Option String) (now : Int) :
    List Notification → List Notification →
    List Notification × Nat × Nat × List Ev
  | [], store => (store, 0, 0, [])
  | n :: rest, store =>
    if ready then
      if (users n.userId).isActive then
        match sendResult n with
        | none =>
          let store1 := saveNotif store n.nid (markAsSent now n)
          let r := processList ready users sendResult now rest store1
          (r.1, r.2.1 + 1, r.2.2.1,
            Ev.sendAttempt n.nid :: Ev.delivered n.nid :: Ev.delay :: r.2.2.2)
        | some msg =>
          let store1 := saveNotif store n.nid (markAsFailed msg n)
          let r := processList ready users sendResult now rest store1
          (r.1, r.2.1, r.2.2.1 + 1,
            Ev.sendAttempt n.nid :: Ev.deliveryFailed n.nid :: r.2.2.2)
      else
        let store1 := saveNotif store n.nid (markAsFailed "User is inactive" n)
        let r := processList ready users sendResult now rest store1
        (r.1, r.2.1, r.2.2.1 + 1, Ev.skippedInactive n.nid :: r.2.2.2)
    else
      (store, 0, 0, [])

/-- The query `Notification.find({status: 'pending', scheduledFor: {$lte:
now}}).limit(50)`: the due pending notifications, at most 50. -/
def selectPending (now : Int) (store : List Notification) : List Notification :=
  ((store.filter (fun n =>
    n.status == NStatus.pending && decide (n.scheduledFor ≤ now))).take 50)

/-- `processPendingNotifications()`: re-entrancy guard, select at most 50
due pending notifications, run the per-notification loop, and return
`{processed, sent, failed}` where `processed` is the number of selected
records.  Also returns the updated store and the event trace. -/
def processPendingNotifications (isProcessing ready : Bool) (users : Nat → User)
    (sendResult : Notification → Option String) (now : Int)
    (store : List Notification) :
    List Notification × CycleResult × List Ev :=
  if isProcessing then
    (store, { processed := 0, sent := 0, failed := 0 }, [])
  else
    let sel := selectPending now store
    let r := processList ready users sendResult now sel store
    (r.1, { processed := sel.length, sent := r.2.1, failed := r.2.2.1 }, r.2.2.2)

/-! ## Retry sweep (scheduler.js, `retryFailedNotifications`) -/

/-- Selection predicate of the retry sweep: `{status: 'failed', attempts:
{$lt: 3}, scheduledFor: {$lte: now}}`. -/
def retrySelected (now : Int) (n : Notification) : Bool :=
  n.status == NStatus.failed && decide (n.attempts < 3) && decide (n.scheduledFor ≤ now)

/-- Store transformation of `retryFailedNotifications()`: every selected
document gets `status = 'pending'` and is saved; nothing else changes. -/
def retryStore (now : Int) (store : List Notification) : List Notification :=
  store.map (fun n =>
    if retrySelected now n then { n with status := NStatus.pending } else n)

/-- `retryFailedNotifications()`: performs the sweep and returns the
number of notifications retried. -/
def retryFailedNotifications (now : Int) (store : List Notification) :
    List Notification × Nat :=
  (retryStore now store, (store.filter (retrySelected now)).length)

/-! ## Shared sample objects for witnesses and counterexamples -/

/-- A sample active user. -/
def sampleUser : User :=
  { uid := 1, username := "bc123456789", whatsapp := "+923001234567", isActive := true }

/-- A sample raw activity due at 08:00 of day 0. -/
def sampleRawMorning : RawActivity :=
  { course_code := "CS101"
    activity_type := "Quiz"
    title := "Quiz 1"
    start_date := none
    due_date := some 28800000
    link := "https://lms/q1" }

/-! ## Auxiliary string lemmas for the content identity -/

/-- Strings with equal character data are equal. -/
theorem string_data_inj {a b : String} (h : a.data = b.data) : a = b := by
  cases a
  cases b
  exact congrArg String.mk h

/-- Splitting at the first separator is unambiguous when neither prefix
part contains the separator. -/
theorem pipe_split (l1 : List Char) : ∀ l2 r1 r2 : List Char,
    '|' ∉ l1 → '|' ∉ l2 → l1 ++ '|' :: r1 = l2 ++ '|' :: r2 →
    l1 = l2 ∧ r1 = r2 := by
  induction l1 with
  | nil =>
    intro l2 r1 r2 _ h2 h
    cases l2 with
    | nil => simpa using h
    | cons y ys =>
      simp only [List.nil_append, List.cons_append, List.cons.injEq] at h
      exact absurd (h.1 ▸ List.mem_cons_self y ys) (h.1 ▸ h2)
  | cons x xs ih =>
    intro l2 r1 r2 h1 h2 h
    cases l2 with
    | nil =>
      simp only [List.cons_append, List.nil_append, List.cons.injEq] at h
      exact absurd (h.1 ▸ List.mem_cons_self x xs) (fun hx => h1 (h.1 ▸ hx))
    | cons y ys =>
      simp only [List.cons_append, List.cons.injEq] at h
      have hrest := ih ys r1 r2 (fun hm => h1 (List.mem_cons_of_mem x hm))
        (fun hm => h2 (List.mem_cons_of_mem y hm)) h.2
      exact ⟨by simp [h.1, hrest.1], hrest.2⟩

/-- Character data of the hash pre-image. -/
theorem hashData_data (a b c d : String) :
    (hashData a b c d).data =
      a.data ++ '|' :: (b.data ++ '|' :: (c.data ++ '|' :: d.data)) := by
  simp [hashData, String.data_append]

/-- C9 counterexample: two tuples that differ in the courseCode and title
components produce the identical SHA-256 pre-image (hence the identical
digest), because a `|` inside a component merges with the separators:
`(1, "A|B", "C", 5)` and `(1, "A", "B|C", 5)` both encode to
`"1|A|B|C|5"`.  This refutes "for every two input tuples that differ in
at least one component, the resulting identities differ". -/
theorem C9_identity_collision_cex :
    generateHash 1 "A|B" "C" 5 = generateHash 1 "A" "B|C" 5 ∧
      ¬("A|B" = "A" ∧ "C" = "B|C") := by
  refine ⟨rfl, ?_⟩
  intro h
  exact absurd h.1 (by decide)

/-- C9 (amended): the content identity is deterministic — equal inputs
give equal identities — and the injectivity of the identity holds at the
level of the SHA-256 pre-image for inputs whose first three components
are free of the `|` separator character (components containing `|` can
collide, as the counterexample shows). -/
theorem C9_identity_deterministic_and_pipe_free_injective :
    (∀ (u u' : Nat) (c c' t t' : String) (d d' : Int),
      u = u' → c = c' → t = t' → d = d' →
        generateHash u c t d = generateHash u' c' t' d') ∧
    (∀ a b c d a' b' c' d' : String,
      '|' ∉ a.data → '|' ∉ b.data → '|' ∉ c.data →
      '|' ∉ a'.data → '|' ∉ b'.data → '|' ∉ c'.data →
        hashData a b c d = hashData a' b' c' d' →
        a = a' ∧ b = b' ∧ c = c' ∧ d = d') := by
  constructor
  · intro u u' c c' t t' d d' hu hc ht hd
    rw [hu, hc, ht, hd]
  · intro a b c d a' b' c' d' ha hb hc ha' hb' hc' h
    have hdata := congrArg String.data h
    rw [hashData_data, hashData_data] at hdata
    have h1 := pipe_split a.data a'.data _ _ ha ha' hdata
    have h2 := pipe_split b.data b'.data _ _ hb hb' h1.2
    have h3 := pipe_split c.data c'.data _ _ hc hc' h2.2
    exact ⟨string_data_inj h1.1, string_data_inj h2.1, string_data_inj h3.1,
      string_data_inj h3.2⟩

/-- C9 witness: the amended theorem applied at concrete inputs. -/
theorem C9_identity_witness :
    generateHash 7 "CS201" "Quiz 1" 3 = generateHash 7 "CS201" "Quiz 1" 3 ∧
      ("u" = "u" ∧ "c" = "c" ∧ "t" = "t" ∧ "d" = "d") :=
  ⟨C9_identity_deterministic_and_pipe_free_injective.1 7 7 "CS201" "CS201"
      "Quiz 1" "Quiz 1" 3 3 rfl rfl rfl rfl,
    C9_identity_deterministic_and_pipe_free_injective.2 "u" "c" "t" "d"
      "u" "c" "t" "d" (by decide) (by decide) (by decide) (by decide)
      (by decide) (by decide) rfl⟩

/-- C6 counterexample: at ingestion instant 54 000 000 ms (15:00 of day
0), a raw activity due at 28 800 000 ms (08:00 of the same day — strictly
before the ingestion instant) is persisted anyway, because the past
filter compares against `startOfDay` of the instant, not the instant:
one Activity record with due instant 28 800 000 < 54 000 000 is created.
This refutes "no Activity record is ever created with a due instant
earlier than the moment it was ingested". -/
theorem C6_past_filter_cex :
    (28800000 : Int) < 54000000 ∧
      (ingestActivity 54000000 sampleUser sampleRawMorning [] 0).1.map
          Activity.dueDate = [28800000] ∧
      (ingestActivity 54000000 sampleUser sampleRawMorning [] 0).2 ≠
        IngestResult.skippedPast := by
  refine ⟨by decide, rfl, ?_⟩
  intro h
  simp [ingestActivity, sampleRawMorning, startOfDay, oneDayMs] at h

/-- C6 (amended): the past filter cuts at the start of the ingestion
day: a raw activity whose due instant lies strictly before
`startOfDay t` (or that has no due date) is skipped with no persistence,
and every Activity created by ingestion at instant `t` has a due instant
at or after `startOfDay t` — but an activity due earlier on the same day
is still persisted. -/
theorem C6_past_filter_start_of_day :
    (∀ (t : Int) (user : User) (raw : RawActivity) (store : List Activity)
        (fid : Nat) (due : Int), raw.due_date = some due → due < startOfDay t →
        ingestActivity t user raw store fid = (store, IngestResult.skippedPast)) ∧
    (∀ (t : Int) (user : User) (raw : RawActivity) (store : List Activity)
        (fid : Nat) (a : Activity),
        (ingestActivity t user raw store fid).2 = IngestResult.created a →
        startOfDay t ≤ a.dueDate) := by
  constructor
  · intro t user raw store fid due hdue hpast
    simp [ingestActivity, hdue, hpast]
  · intro t user raw store fid a hres
    cases hdue : raw.due_date with
    | none =>
      simp only [ingestActivity, hdue] at hres
      exact absurd hres (by simp)
    | some due =>
      simp only [ingestActivity, hdue] at hres
      split at hres
      · exact absurd hres (by simp)
      · rename_i hpast
        split at hres
        · exact absurd hres (by simp)
        · simp only [IngestResult.created.injEq] at hres
          rw [← hres]
          exact le_of_not_lt hpast

/-- C6 witness: the amended theorem applied at concrete inputs. -/
theorem C6_past_filter_witness :
    ingestActivity 54000000 sampleUser
        { sampleRawMorning with due_date := some (-1) } [] 0 =
      ([], IngestResult.skippedPast) :=
  C6_past_filter_start_of_day.1 54000000 sampleUser
    { sampleRawMorning with due_date := some (-1) } [] 0 (-1) rfl (by decide)

/-- C5: the retry sweep maps each stored notification in place: a record
matching `status = failed ∧ attempts < 3 ∧ scheduledFor ≤ now` is reset
to pending with all other fields (attempts included) untouched, a
non-matching record is untouched; and a record with `attempts = 3` and
`status = failed` is a fixed point of the sweep for any number of
iterated sweep invocations. -/
theorem C5_retry_sweep_resets_exactly_selected :
    ∀ (now : Int) (store : List Notification) (i : Nat) (n : Notification),
      store[i]? = some n →
      ((retryFailedNotifications now store).1[i]? =
        some (if retrySelected now n then { n with status := NStatus.pending }
          else n)) ∧
      (n.attempts = 3 → n.status = NStatus.failed →
        ∀ k, ((retryStore now)^[k] store)[i]? = some n) := by
  intro now store i n hget
  have hfix : n.attempts = 3 → n.status = NStatus.failed →
      (if retrySelected now n then { n with status := NStatus.pending } else n) = n := by
    intro ha _
    have : retrySelected now n = false := by
      simp [retrySelected, ha]
    simp [this]
  constructor
  · show (retryStore now store)[i]? = _
    rw [retryStore, List.getElem?_map, hget]
    rfl
  · intro ha hs k
    induction k with
    | zero => simpa using hget
    | succ m ih =>
      rw [Function.iterate_succ_apply', retryStore, List.getElem?_map, ih]
      simp [hfix ha hs]

/-- C5 witness: the sweep theorem applied to a one-element store holding
a due failed notification with 1 attempt (reset to pending), and to one
with 3 attempts (left failed forever). -/
theorem C5_retry_sweep_witness :
    ((retryFailedNotifications 100
        [{ nid := 5, activityId := 10, userId := 1,
           notificationType := NotifType.reminder, scheduledFor := 0,
           sentAt := none, status := NStatus.failed, error := some "e",
           attempts := 1 }]).1[0]? =
      some { nid := 5, activityId := 10, userId := 1,
             notificationType := NotifType.reminder, scheduledFor := 0,
             sentAt := none, status := NStatus.pending, error := some "e",
             attempts := 1 }) ∧
    (((retryStore 100)^[4]
        [{ nid := 5, activityId := 10, userId := 1,
           notificationType := NotifType.reminder, scheduledFor := 0,
           sentAt := none, status := NStatus.failed, error := some "e",
           attempts := 3 }])[0]? =
      some { nid := 5, activityId := 10, userId := 1,
             notificationType := NotifType.reminder, scheduledFor := 0,
             sentAt := none, status := NStatus.failed, error := some "e",
             attempts := 3 }) := by
  constructor
  · have h := (C5_retry_sweep_resets_exactly_selected 100
      [{ nid := 5, activityId := 10, userId := 1,
         notificationType := NotifType.reminder, scheduledFor := 0,
         sentAt := none, status := NStatus.failed, error := some "e",
         attempts := 1 }] 0
      { nid := 5, activityId := 10, userId := 1,
        notificationType := NotifType.reminder, scheduledFor := 0,
        sentAt := none, status := NStatus.failed, error := some "e",
        attempts := 1 } rfl).1
    rw [h]
    decide
  · exact (C5_retry_sweep_resets_exactly_selected 100
      [{ nid := 5, activityId := 10, userId := 1,
         notificationType := NotifType.reminder, scheduledFor := 0,
         sentAt := none, status := NStatus.failed, error := some "e",
         attempts := 3 }] 0
      { nid := 5, activityId := 10, userId := 1,
        notificationType := NotifType.reminder, scheduledFor := 0,
        sentAt := none, status := NStatus.failed, error := some "e",
        attempts := 3 } rfl).2 rfl rfl 4

/-- A sample pending notification due at instant 0. -/
def samplePendingNotif : Notification :=
  { nid := 5
    activityId := 10
    userId := 1
    notificationType := NotifType.reminder
    scheduledFor := 0
    sentAt := none
    status := NStatus.pending
    error := none
    attempts := 0 }

/-- Auxiliary: with the channel not ready, the per-notification loop
stops before touching anything. -/
theorem processList_not_ready (users : Nat → User)
    (sendResult : Notification → Option String) (now : Int)
    (sel store : List Notification) :
    processList false users sendResult now sel store = (store, 0, 0, []) := by
  cases sel <;> simp [processList]

/-- C2 counterexample: with one due pending notification in the store
and the channel not ready, the cycle result is `{processed: 1, sent: 0,
failed: 0}`, not `{processed: 0, sent: 0, failed: 0}`: the selection
count is reported even though the not-ready check aborts the loop.
This refutes "the cycle returns the result {processed: 0, sent: 0,
failed: 0}". -/
theorem C2_not_ready_processed_count_cex :
    samplePendingNotif.status = NStatus.pending ∧
      samplePendingNotif.scheduledFor ≤ (100 : Int) ∧
      (processPendingNotifications false false (fun _ => sampleUser)
          (fun _ => none) 100 [samplePendingNotif]).2.1 =
        { processed := 1, sent := 0, failed := 0 } ∧
      { processed := 1, sent := 0, failed := 0 } ≠
        ({ processed := 0, sent := 0, failed := 0 } : CycleResult) := by
  refine ⟨rfl, by decide, rfl, by decide⟩

/-- C2 (amended): a dispatch cycle run while the channel is not ready
performs no work — the store is returned unchanged (every notification
keeps its status, attempts, error and sentAt) and `sent = failed = 0` —
but `processed` reports the number of selected due pending
notifications, which is nonzero whenever any were due. -/
theorem C2_not_ready_leaves_store_untouched :
    ∀ (users : Nat → User) (sendResult : Notification → Option String)
      (now : Int) (store : List Notification),
      processPendingNotifications false false users sendResult now store =
        (store,
          { processed := (selectPending now store).length, sent := 0, failed := 0 },
          []) := by
  intro users sendResult now store
  simp [processPendingNotifications, processList_not_ready]

/-- C2 witness: the amended theorem applied at a concrete store. -/
theorem C2_not_ready_witness :
    processPendingNotifications false false (fun _ => sampleUser)
        (fun _ => none) 100 [samplePendingNotif] =
      ([samplePendingNotif],
        { processed := (selectPending 100 [samplePendingNotif]).length,
          sent := 0, failed := 0 },
        []) :=
  C2_not_ready_leaves_store_untouched (fun _ => sampleUser) (fun _ => none)
    100 [samplePendingNotif]

/-- Auxiliary: in the per-notification loop, delay events occur exactly
once per successful delivery. -/
theorem processList_count_delay (ready : Bool) (users : Nat → User)
    (sendResult : Notification → Option String) (now : Int) :
    ∀ (sel store : List Notification),
      (processList ready users sendResult now sel store).2.2.2.count Ev.delay =
        (processList ready users sendResult now sel store).2.1 := by
  intro sel
  induction sel with
  | nil => intro store; simp [processList]
  | cons n rest ih =>
    intro store
    by_cases hr : ready
    · subst hr
      by_cases ha : (users n.userId).isActive
      · cases hs : sendResult n with
        | none => simp [processList, ha, hs, List.count_cons, ih]
        | some msg => simp [processList, ha, hs, List.count_cons, ih]
      · simp [processList, ha, List.count_cons, ih]
    · simp [processList, eq_false_of_ne_true hr, List.count]

/-- C8 counterexample: a cycle over one due pending notification of an
active user whose delivery attempt fails produces the trace
`[sendAttempt, deliveryFailed]` with zero delay events: the failed
delivery attempt is NOT followed by the inter-message pause (the
`setTimeout` sits on the success path only, and the `catch` block skips
it).  This refutes "after every attempted delivery — whether the attempt
succeeds or fails — the dispatcher pauses". -/
theorem C8_no_delay_after_failure_cex :
    ((processPendingNotifications false true (fun _ => sampleUser)
        (fun _ => some "Send failed") 100 [samplePendingNotif]).2.2.count
      (Ev.sendAttempt 5) = 1) ∧
    ((processPendingNotifications false true (fun _ => sampleUser)
        (fun _ => some "Send failed") 100 [samplePendingNotif]).2.2.count
      Ev.delay = 0) := by
  refine ⟨by decide, by decide⟩

/-- C8 (amended): within one dispatch cycle the fixed inter-message pause
happens exactly once per successful delivery — the number of delay events
in the cycle's trace equals its `sent` counter — so failed delivery
attempts and inactive-subject skips proceed to the next record without
the pause. -/
theorem C8_delay_exactly_per_success :
    ∀ (isProc ready : Bool) (users : Nat → User)
      (sendResult : Notification → Option String) (now : Int)
      (store : List Notification),
      (processPendingNotifications isProc ready users sendResult now
          store).2.2.count Ev.delay =
        (processPendingNotifications isProc ready users sendResult now
            store).2.1.sent := by
  intro isProc ready users sendResult now store
  by_cases hp : isProc
  · simp [processPendingNotifications, hp, List.count]
  · simp [processPendingNotifications, hp, processList_count_delay]

/-- C1: ingesting the identical raw activity data (same subject, course
code, title, due instant) twice — at ingestion instants `t1` and `t2`
with the due date future at both, so within one run or across runs —
leaves exactly one Activity record carrying its content identity,
provided the store held at most one such record (the unique-index
invariant); the second ingestion finds the existing record by its
content identity, creates nothing, and leaves the store unchanged. -/
theorem C1_idempotent_ingestion :
    ∀ (t1 t2 : Int) (user : User) (raw : RawActivity) (store : List Activity)
      (i1 i2 : Nat) (due : Int),
      raw.due_date = some due →
      ¬due < startOfDay t1 → ¬due < startOfDay t2 →
      countHash store (generateHash user.uid raw.course_code raw.title due) ≤ 1 →
      countHash (ingestActivity t2 user raw (ingestActivity t1 user raw store i1).1 i2).1
          (generateHash user.uid raw.course_code raw.title due) = 1 ∧
      (ingestActivity t2 user raw (ingestActivity t1 user raw store i1).1 i2).1 =
        (ingestActivity t1 user raw store i1).1 ∧
      (∃ a, (ingestActivity t2 user raw (ingestActivity t1 user raw store i1).1 i2).2 =
        IngestResult.skippedDuplicate a ∧
        a.activityHash = generateHash user.uid raw.course_code raw.title due) := by
  intro t1 t2 user raw store i1 i2 due hdue hf1 hf2 hcount
  cases hfind : store.find? (fun a =>
      a.activityHash == generateHash user.uid raw.course_code raw.title due) with
  | some a =>
    have r1eq : ingestActivity t1 user raw store i1 =
        (store, IngestResult.skippedDuplicate a) := by
      simp [ingestActivity, hdue, hf1, hfind]
    have r2eq : ingestActivity t2 user raw store i2 =
        (store, IngestResult.skippedDuplicate a) := by
      simp [ingestActivity, hdue, hf2, hfind]
    have hpa := List.find?_some hfind
    have hma := List.mem_of_find?_eq_some hfind
    have hmem : a ∈ store.filter (fun x =>
        x.activityHash == generateHash user.uid raw.course_code raw.title due) :=
      List.mem_filter.mpr ⟨hma, hpa⟩
    have hpos : 0 < countHash store
        (generateHash user.uid raw.course_code raw.title due) :=
      List.length_pos.mpr (List.ne_nil_of_mem hmem)
    rw [r1eq]
    rw [r2eq]
    refine ⟨le_antisymm hcount hpos, rfl, a, rfl, by simpa using hpa⟩
  | none =>
    obtain ⟨A, r1eq, hAh⟩ : ∃ A, ingestActivity t1 user raw store i1 =
        (store ++ [A], IngestResult.created A) ∧
        A.activityHash = generateHash user.uid raw.course_code raw.title due := by
      refine ⟨{ aid := i1
                userId := user.uid
                courseCode := raw.course_code.toUpper
                activityType := raw.activity_type
                title := raw.title.trim
                startDate := raw.start_date
                dueDate := due
                link := raw.link
                activityHash := generateHash user.uid raw.course_code raw.title due },
        ?_, rfl⟩
      simp [ingestActivity, hdue, hf1, hfind]
    have hfind2 : (store ++ [A]).find? (fun a =>
        a.activityHash == generateHash user.uid raw.course_code raw.title due) =
        some A := by
      rw [List.find?_append, hfind]
      simp [List.find?, hAh]
    have r2eq : ingestActivity t2 user raw (store ++ [A]) i2 =
        (store ++ [A], IngestResult.skippedDuplicate A) := by
      simp [ingestActivity, hdue, hf2, hfind2]
    have hempty : store.filter (fun x =>
        x.activityHash == generateHash user.uid raw.course_code raw.title due) = [] := by
      rw [List.filter_eq_nil_iff]
      exact fun x hx => List.find?_eq_none.mp hfind x hx
    rw [r1eq]
    rw [r2eq]
    refine ⟨?_, rfl, A, rfl, hAh⟩
    simp [countHash, List.filter_append, hempty, hAh]

/-- C1 witness: the theorem applied at a concrete empty store and the
sample raw activity (due at 08:00 of day 0, ingested at midnight twice). -/
theorem C1_idempotent_ingestion_witness :
    countHash (ingestActivity 0 sampleUser sampleRawMorning
        (ingestActivity 0 sampleUser sampleRawMorning [] 1).1 2).1
      (generateHash sampleUser.uid sampleRawMorning.course_code
        sampleRawMorning.title 28800000) = 1 := by
  have h := C1_idempotent_ingestion 0 0 sampleUser sampleRawMorning [] 1 2
    28800000 rfl (by decide) (by decide) (by decide)
  exact h.1

/-- Number of stored notifications for a given `(activityId,
notificationType)` pair. -/
def pairCount (store : List Notification) (a : Nat) (ty : NotifType) : Nat :=
  (store.filter (fun m => m.activityId == a && m.notificationType == ty)).length

/-- The unique-index invariant of `notificationSchema`: at most one
notification per `(activityId, notificationType)` pair. -/
def atMostOnePerPair (store : List Notification) : Prop :=
  ∀ a ty, pairCount store a ty ≤ 1

/-- Auxiliary: the guarded insert preserves the unique-index invariant. -/
theorem notifCreate_preserves_atMostOne (store : List Notification)
    (n : Notification) (h : atMostOnePerPair store) :
    atMostOnePerPair (notifCreate store n).1 := by
  unfold notifCreate
  by_cases hany : store.any (fun m =>
      m.activityId == n.activityId && m.notificationType == n.notificationType) = true
  · simpa [hany] using h
  · rw [if_neg hany]
    intro a ty
    have hsplit : pairCount (store ++ [n]) a ty =
        pairCount store a ty +
          (List.filter (fun m => m.activityId == a && m.notificationType == ty) [n]).length := by
      simp [pairCount, List.filter_append]
    by_cases hmatch : n.activityId = a ∧ n.notificationType = ty
    · have hzero : pairCount store a ty = 0 := by
        rw [pairCount, List.length_eq_zero, List.filter_eq_nil_iff]
        intro m hm
        have := (List.any_eq_false.mp (eq_false_of_ne_true hany)) m hm
        simpa [hmatch.1, hmatch.2] using this
      simp only [hsplit, hzero]
      simp [hmatch.1, hmatch.2]
    · have : (List.filter (fun m =>
          m.activityId == a && m.notificationType == ty) [n]).length = 0 := by
        rw [List.length_eq_zero, List.filter_eq_nil_iff]
        intro m hm
        simp only [List.mem_singleton] at hm
        subst hm
        simp only [Bool.and_eq_true, beq_iff_eq, not_and]
        intro h1 h2
        exact hmatch ⟨h1, h2⟩
      rw [hsplit, this]
      simpa using h a ty

/-- Auxiliary: one `scheduleNotifications` call preserves the
unique-index invariant. -/
theorem scheduleNotifications_preserves_atMostOne (now : Int) (fresh : Nat)
    (act : Activity) (store : List Notification) (h : atMostOnePerPair store) :
    atMostOnePerPair (scheduleNotifications now fresh act store).1 := by
  unfold scheduleNotifications
  rcases hsd : act.startDate with _ | s
  · simp only [hsd]
    split
    · exact notifCreate_preserves_atMostOne _ _ h
    · exact h
  · simp only [hsd]
    split
    · split
      · exact notifCreate_preserves_atMostOne _ _
          (notifCreate_preserves_atMostOne _ _ h)
      · exact notifCreate_preserves_atMostOne _ _ h
    · split
      · exact notifCreate_preserves_atMostOne _ _ h
      · exact h

/-- C3: across any sequence of `scheduleNotifications` calls the store
keeps at most one notification per `(Activity, type)` pair, and an
insert that collides with an existing pair completes as a no-op —
returning the store unchanged and creating nothing (the caught E11000
path). -/
theorem C3_notification_uniqueness :
    (∀ (calls : List (Int × Nat × Activity)) (store : List Notification),
      atMostOnePerPair store →
      atMostOnePerPair (calls.foldl
        (fun st c => (scheduleNotifications c.1 c.2.1 c.2.2 st).1) store)) ∧
    (∀ (store : List Notification) (n : Notification),
      (∃ m ∈ store, m.activityId = n.activityId ∧
        m.notificationType = n.notificationType) →
      notifCreate store n = (store, none)) := by
  constructor
  · intro calls
    induction calls with
    | nil => intro store h; simpa using h
    | cons c rest ih =>
      intro store h
      simpa using ih _ (scheduleNotifications_preserves_atMostOne c.1 c.2.1 c.2.2 store h)
  · intro store n hex
    obtain ⟨m, hm, h1, h2⟩ := hex
    have : store.any (fun x =>
        x.activityId == n.activityId && x.notificationType == n.notificationType) = true := by
      rw [List.any_eq_true]
      exact ⟨m, hm, by simp [h1, h2]⟩
    simp [notifCreate, this]

/-- C3 witness: the theorem applied at a concrete call sequence and a
concrete colliding insert. -/
theorem C3_notification_uniqueness_witness :
    pairCount ([((0 : Int), 100,
        { aid := 10, userId := 1, courseCode := "CS201", activityType := "Quiz",
          title := "Quiz 1", startDate := some 172800000,
          dueDate := 259200000, link := "L", activityHash := "h" })].foldl
      (fun st c => (scheduleNotifications c.1 c.2.1 c.2.2 st).1) [])
        10 NotifType.reminder ≤ 1 ∧
      notifCreate [samplePendingNotif] samplePendingNotif =
        ([samplePendingNotif], none) :=
  ⟨C3_notification_uniqueness.1 _ [] (by intro a ty; simp [pairCount]) 10
      NotifType.reminder,
    C3_notification_uniqueness.2 [samplePendingNotif] samplePendingNotif
      ⟨samplePendingNotif, by simp⟩⟩

/-- C4: for a freshly created activity (no notification in the store
references it), `scheduleNotifications` appends exactly the
notifications it returns (at most two); the returned list contains a
reminder scheduled at `dueDate − 1 day` iff that instant is strictly
after now, contains a start notification scheduled at the start date iff
the start date is present and strictly after now, and contains no start
notification when the start date is absent. -/
theorem C4_scheduling_correctness :
    ∀ (now : Int) (fresh : Nat) (act : Activity) (store : List Notification),
      (∀ m ∈ store, m.activityId ≠ act.aid) →
      ((scheduleNotifications now fresh act store).1 =
        store ++ (scheduleNotifications now fresh act store).2) ∧
      ((∃ m ∈ (scheduleNotifications now fresh act store).2,
          m.notificationType = NotifType.reminder ∧
          m.scheduledFor = act.dueDate - oneDayMs) ↔
        now < act.dueDate - oneDayMs) ∧
      (∀ s, act.startDate = some s →
        ((∃ m ∈ (scheduleNotifications now fresh act store).2,
            m.notificationType = NotifType.start ∧ m.scheduledFor = s) ↔
          now < s)) ∧
      (act.startDate = none →
        ∀ m ∈ (scheduleNotifications now fresh act store).2,
          m.notificationType ≠ NotifType.start) ∧
      (scheduleNotifications now fresh act store).2.length ≤ 2 := by
  intro now fresh act store hfresh
  have hanyS : store.any (fun m =>
      m.activityId == act.aid && m.notificationType == NotifType.start) = false := by
    rw [List.any_eq_false]
    intro m hm
    simp [hfresh m hm]
  have hanyR : ∀ extra : List Notification,
      (∀ m ∈ extra, m.notificationType = NotifType.start) →
      (store ++ extra).any (fun m =>
        m.activityId == act.aid && m.notificationType == NotifType.reminder) = false := by
    intro extra hextra
    rw [List.any_eq_false]
    intro m hm
    rcases List.mem_append.mp hm with hms | hme
    · simp [hfresh m hms]
    · simp [hextra m hme]
  have hanyR0 := hanyR [] (by simp)
  rcases hsd : act.startDate with _ | s0
  · by_cases hrem : now < act.dueDate - oneDayMs
    · simp [scheduleNotifications, hsd, hrem, notifCreate,
        (by simpa using hanyR0 :
          store.any (fun m => m.activityId == act.aid &&
            m.notificationType == NotifType.reminder) = false)]
    · simp [scheduleNotifications, hsd, hrem, notifCreate, hrem]
  · by_cases hst : now < s0
    · have hanyR1 := hanyR
        [{ nid := fresh
           activityId := act.aid
           userId := act.userId
           notificationType := NotifType.start
           scheduledFor := s0
           sentAt := none
           status := NStatus.pending
           error := none
           attempts := 0 }] (by simp)
      by_cases hrem : now < act.dueDate - oneDayMs
      · simp only [scheduleNotifications, hsd, hrem, hst, if_pos, notifCreate,
          hanyS, hanyR1, Bool.false_eq_true, if_neg, if_false]
        constructor
        · simp
        refine ⟨?_, ?_, ?_, ?_⟩
        · simp [hrem]
        · intro s hs
          rw [Option.some.injEq] at hs
          subst hs
          simp [hst]
        · intro habs
          simp at habs
        · simp
      · simp only [scheduleNotifications, hsd, hrem, hst, if_pos, notifCreate,
          hanyS, Bool.false_eq_true, if_neg, if_false]
        constructor
        · simp
        refine ⟨?_, ?_, ?_, ?_⟩
        · simp [hrem]
        · intro s hs
          rw [Option.some.injEq] at hs
          subst hs
          simp [hst]
        · intro habs
          simp at habs
        · simp
    · by_cases hrem : now < act.dueDate - oneDayMs
      · simp only [scheduleNotifications, hsd, hrem, hst, notifCreate,
          (by simpa using hanyR0 :
            store.any (fun m => m.activityId == act.aid &&
              m.notificationType == NotifType.reminder) = false),
          Bool.false_eq_true, if_neg, if_false, if_pos]
        constructor
        · simp
        refine ⟨?_, ?_, ?_, ?_⟩
        · simp [hrem]
        · intro s hs
          rw [Option.some.injEq] at hs
          subst hs
          simp [hst]
        · intro habs
          simp at habs
        · simp
      · simp only [scheduleNotifications, hsd, hrem, hst, notifCreate,
          Bool.false_eq_true, if_neg, if_false]
        constructor
        · simp
        refine ⟨?_, ?_, ?_, ?_⟩
        · simp [hrem]
        · intro s hs
          rw [Option.some.injEq] at hs
          subst hs
          simp [hst]
        · intro habs
          simp at habs
        · simp

/-- C4 witness: the theorem applied to a concrete fresh activity with a
future start date and a due date more than one day away, on an empty
store. -/
theorem C4_scheduling_correctness_witness :
    (∃ m ∈ (scheduleNotifications 1000 100
        { aid := 10, userId := 1, courseCode := "CS201", activityType := "Quiz",
          title := "Quiz 1", startDate := some 172800000,
          dueDate := 259200000, link := "L", activityHash := "h" } []).2,
      m.notificationType = NotifType.reminder ∧
      m.scheduledFor = (259200000 : Int) - oneDayMs) := by
  have h := C4_scheduling_correctness 1000 100
    { aid := 10, userId := 1, courseCode := "CS201", activityType := "Quiz",
      title := "Quiz 1", startDate := some 172800000,
      dueDate := 259200000, link := "L", activityHash := "h" } []
    (by intro m hm; simp at hm)
  exact h.2.1.mpr (by decide)

/-- A scrape instant: noon of 1970-01-30 (day 29). -/
def sampleScrapeInstant : Int := 29 * 86400000 + 12 * 3600000

/-- A raw activity due at 01:00 of 1970-02-02 (day 32) — three days after
`sampleScrapeInstant`, but in the following calendar month. -/
def sampleNextMonthRaw : RawActivity :=
  { course_code := "CS201"
    activity_type := "Assignment"
    title := "A1"
    start_date := none
    due_date := some (32 * 86400000 + 3600000)
    link := "https://lms/a1" }

/-- C7 counterexample: an activity due three days from now — inside the
next-7-days window — is excluded from the short-horizon delivery set
because its due date falls in the next calendar month (the filter also
requires `dueDate` to lie in the current month).  This refutes "an
activity due within 7 days is in the set". -/
theorem C7_next_month_excluded_cex :
    startOfDay sampleScrapeInstant ≤ (32 * 86400000 + 3600000 : Int) ∧
      (32 * 86400000 + 3600000 : Int) ≤
        startOfDay sampleScrapeInstant + 7 * oneDayMs + (oneDayMs - 1) ∧
      getUpcomingActivities sampleScrapeInstant [sampleNextMonthRaw] = [] := by
  refine ⟨by decide, by decide, ?_⟩
  rw [getUpcomingActivities]
  apply List.eq_nil_of_length_eq_zero
  rw [List.length_mergeSort]
  decide

/-- C7 (amended): the short-horizon delivery set contains exactly the
activities with a due date that — normalized to noon — lies between the
start of today and the end of the 7th day from today AND falls in the
same calendar month (and year) as today; the set is sorted by due date
ascending. -/
theorem C7_upcoming_window_and_month :
    ∀ (t : Int) (acts : List RawActivity) (a : RawActivity),
      (a ∈ getUpcomingActivities t acts ↔
        a ∈ acts ∧ ∃ d, a.due_date = some d ∧
          startOfDay t ≤ startOfDay d + 12 * 3600000 ∧
          startOfDay d + 12 * 3600000 ≤ startOfDay t + 7 * oneDayMs + (oneDayMs - 1) ∧
          getFullYear (startOfDay d + 12 * 3600000) = getFullYear (startOfDay t) ∧
          getMonth (startOfDay d + 12 * 3600000) = getMonth (startOfDay t)) ∧
      List.Pairwise (fun x y => dueKey x ≤ dueKey y) (getUpcomingActivities t acts) := by
  intro t acts a
  constructor
  · rw [getUpcomingActivities]
    rw [List.mem_mergeSort, List.mem_filter]
    cases hd : a.due_date with
    | none => simp [hd]
    | some d =>
      simp only [hd, Option.some.injEq]
      constructor
      · rintro ⟨hmem, hcond⟩
        simp only [Bool.and_eq_true, beq_iff_eq, decide_eq_true_eq] at hcond
        exact ⟨hmem, d, rfl, hcond.2.1, hcond.2.2, hcond.1.1, hcond.1.2⟩
      · rintro ⟨hmem, d', hd', h1, h2, h3, h4⟩
        subst hd'
        refine ⟨hmem, ?_⟩
        simp only [Bool.and_eq_true, beq_iff_eq, decide_eq_true_eq]
        exact ⟨⟨h3, h4⟩, h1, h2⟩
  · rw [getUpcomingActivities]
    have h := @List.sorted_mergeSort RawActivity
      (fun x y : RawActivity => decide (dueKey x ≤ dueKey y))
      (fun x y z hxy hyz => by
        simp only [decide_eq_true_eq] at *
        exact le_trans hxy hyz)
      (fun x y => by
        simp only [Bool.or_eq_true, decide_eq_true_eq]
        exact le_total (dueKey x) (dueKey y))
      (acts.filter (fun x =>
        match x.due_date with
        | none => false
        | some d =>
          let dueDate := startOfDay d + 12 * 3600000
          let isInCurrentMonth :=
            getFullYear dueDate == getFullYear (startOfDay t) &&
              getMonth dueDate == getMonth (startOfDay t)
          let isWithin7Days := decide (startOfDay t ≤ dueDate) &&
            decide (dueDate ≤ startOfDay t + 7 * oneDayMs + (oneDayMs - 1))
          isInCurrentMonth && isWithin7Days))
    exact h.imp (by intro x y hxy; simpa using hxy)

/-- Auxiliary: writing a document back under its own id leaves the list
of stored ids unchanged. -/
theorem saveNotif_map_nid (store : List Notification) (k : Nat)
    (v : Notification) (hv : v.nid = k) :
    (saveNotif store k v).map Notification.nid = store.map Notification.nid := by
  unfold saveNotif
  rw [List.map_map]
  apply List.map_congr_left
  intro a _
  by_cases hak : a.nid = k
  · simp [Function.comp, hak, hv]
  · simp [Function.comp, hak]

/-- Auxiliary: if some stored document has id `k`, the written-back value
is in the updated store. -/
theorem saveNotif_mem (store : List Notification) (k : Nat)
    (v : Notification) (hk : k ∈ store.map Notification.nid) :
    v ∈ saveNotif store k v := by
  obtain ⟨e, he, hek⟩ := List.mem_map.mp hk
  have h1 : (fun m => if m.nid == k then v else m) e = v := by simp [hek]
  have h2 := List.mem_map_of_mem (fun m => if m.nid == k then v else m) he
  rw [h1] at h2
  exact h2

/-- Auxiliary: a stored document whose id is touched by no selected
notification survives the per-notification loop unchanged. -/
theorem processList_preserves_untouched (users : Nat → User)
    (sendResult : Notification → Option String) (now : Int) :
    ∀ (sel store : List Notification) (e : Notification), e ∈ store →
      (∀ m ∈ sel, m.nid ≠ e.nid) →
      e ∈ (processList true users sendResult now sel store).1 := by
  intro sel
  induction sel with
  | nil => intro store e he _; simpa [processList] using he
  | cons m rest ih =>
    intro store e he hsel
    have hmne : m.nid ≠ e.nid := hsel m (List.mem_cons_self m rest)
    have hsave : ∀ v : Notification, e ∈ saveNotif store m.nid v := by
      intro v
      have h1 : (fun x => if x.nid == m.nid then v else x) e = e := by
        simp only [beq_iff_eq]
        rw [if_neg (fun h => hmne h.symm)]
      have h2 := List.mem_map_of_mem (fun x => if x.nid == m.nid then v else x) he
      rw [h1] at h2
      exact h2
    have hrest : ∀ m' ∈ rest, m'.nid ≠ e.nid :=
      fun m' hm' => hsel m' (List.mem_cons_of_mem m hm')
    by_cases ha : (users m.userId).isActive
    · cases hs : sendResult m with
      | none => simpa [processList, ha, hs] using ih _ e (hsave _) hrest
      | some msg => simpa [processList, ha, hs] using ih _ e (hsave _) hrest
    · simpa [processList, ha] using ih _ e (hsave _) hrest

/-- Auxiliary: every `sendAttempt` event in the loop's trace carries the
id of some selected notification. -/
theorem processList_sendAttempt_mem (ready : Bool) (users : Nat → User)
    (sendResult : Notification → Option String) (now : Int) :
    ∀ (sel store : List Notification) (k : Nat),
      Ev.sendAttempt k ∈ (processList ready users sendResult now sel store).2.2.2 →
      k ∈ sel.map Notification.nid := by
  intro sel
  induction sel with
  | nil => intro store k h; simp [processList] at h
  | cons m rest ih =>
    intro store k h
    by_cases hr : ready
    · subst hr
      by_cases ha : (users m.userId).isActive
      · cases hs : sendResult m with
        | none =>
          simp only [processList, ha, hs, if_pos, List.mem_cons] at h
          rcases h with h | h | h | h
          · injection h with hk
            simp [hk]
          · exact absurd h (by simp)
          · exact absurd h (by simp)
          · exact List.mem_cons_of_mem _ (ih _ k h)
        | some msg =>
          simp only [processList, ha, hs, if_pos, List.mem_cons] at h
          rcases h with h | h | h
          · injection h with hk
            simp [hk]
          · exact absurd h (by simp)
          · exact List.mem_cons_of_mem _ (ih _ k h)
      · simp only [processList, ha, if_pos, Bool.false_eq_true, if_false,
          List.mem_cons] at h
        rcases h with h | h
        · exact absurd h (by simp)
        · exact List.mem_cons_of_mem _ (ih _ k h)
    · rw [processList, if_neg hr] at h
      simp at h

/-- Auxiliary: the inactive-user branch of the loop marks the selected
notification failed with "User is inactive" and emits no delivery
attempt for it. -/
theorem processList_inactive_marks (users : Nat → User)
    (sendResult : Notification → Option String) (now : Int) :
    ∀ (sel store : List Notification) (n : Notification), n ∈ sel →
      (sel.map Notification.nid).Nodup →
      (users n.userId).isActive = false →
      n.nid ∈ store.map Notification.nid →
      markAsFailed "User is inactive" n ∈
          (processList true users sendResult now sel store).1 ∧
        Ev.sendAttempt n.nid ∉
          (processList true users sendResult now sel store).2.2.2 := by
  intro sel
  induction sel with
  | nil => intro store n hn; exact absurd hn (List.not_mem_nil n)
  | cons m rest ih =>
    intro store n hn hnodup hinact hnid
    have hnodup' : (rest.map Notification.nid).Nodup := by
      simp only [List.map_cons, List.nodup_cons] at hnodup
      exact hnodup.2
    have hmhead : m.nid ∉ rest.map Notification.nid := by
      have h := hnodup
      simp only [List.map_cons, List.nodup_cons] at h
      exact h.1
    rcases List.mem_cons.mp hn with heq | hmem
    · subst heq
      have hstore1 : markAsFailed "User is inactive" n ∈
          saveNotif store n.nid (markAsFailed "User is inactive" n) :=
        saveNotif_mem store n.nid _ hnid
      have hrestne : ∀ m' ∈ rest,
          m'.nid ≠ (markAsFailed "User is inactive" n).nid := by
        intro m' hm' habs
        apply hmhead
        rw [show (markAsFailed "User is inactive" n).nid = n.nid from rfl] at habs
        exact habs ▸ List.mem_map_of_mem Notification.nid hm'
      constructor
      · simpa [processList, hinact] using
          processList_preserves_untouched users sendResult now rest _ _
            hstore1 hrestne
      · intro habs
        simp only [processList, hinact, Bool.false_eq_true, if_false, if_pos,
          List.mem_cons] at habs
        rcases habs with h | h
        · exact absurd h (by simp)
        · exact hmhead (processList_sendAttempt_mem true users sendResult now
            rest _ n.nid h)
    · have hmn : m.nid ≠ n.nid := by
        intro habs
        exact hmhead (habs ▸ List.mem_map_of_mem Notification.nid hmem)
      have step : ∀ v : Notification, v.nid = m.nid →
          markAsFailed "User is inactive" n ∈
              (processList true users sendResult now rest
                (saveNotif store m.nid v)).1 ∧
            Ev.sendAttempt n.nid ∉
              (processList true users sendResult now rest
                (saveNotif store m.nid v)).2.2.2 := by
        intro v hv
        refine ih (saveNotif store m.nid v) n hmem hnodup' hinact ?_
        rw [saveNotif_map_nid store m.nid v hv]
        exact hnid
      by_cases ha : (users m.userId).isActive
      · cases hs : sendResult m with
        | none =>
          have hres := step (markAsSent now m) rfl
          refine ⟨by simpa [processList, ha, hs] using hres.1, ?_⟩
          intro habs
          simp only [processList, ha, hs, if_pos, List.mem_cons] at habs
          rcases habs with h | h | h | h
          · injection h with hk
            exact hmn hk.symm
          · exact absurd h (by simp)
          · exact absurd h (by simp)
          · exact hres.2 h
        | some msg =>
          have hres := step (markAsFailed msg m) rfl
          refine ⟨by simpa [processList, ha, hs] using hres.1, ?_⟩
          intro habs
          simp only [processList, ha, hs, if_pos, List.mem_cons] at habs
          rcases habs with h | h | h
          · injection h with hk
            exact hmn hk.symm
          · exact absurd h (by simp)
          · exact hres.2 h
      · have hres := step (markAsFailed "User is inactive" m) rfl
        refine ⟨by simpa [processList, ha] using hres.1, ?_⟩
        intro habs
        simp only [processList, ha, Bool.false_eq_true, if_false, if_pos,
          List.mem_cons] at habs
        rcases habs with h | h
        · exact absurd h (by simp)
        · exact hres.2 h

/-- One dispatch cycle followed by one retry sweep, as composed store
transformations (guard off, channel ready). -/
def dispatchThenSweep (users : Nat → User)
    (sendResult : Notification → Option String) (now : Int)
    (st : List Notification) : List Notification :=
  (retryFailedNotifications now
    (processPendingNotifications false true users sendResult now st).1).1

/-- A user-lookup under which every subject is inactive. -/
def inactiveUsersFn : Nat → User :=
  fun u => { uid := u, username := "s", whatsapp := "w", isActive := false }

/-- C10: (i) in any dispatch cycle with the channel ready, a selected due
pending notification whose subject is inactive is written back as failed
with error "User is inactive" and attempts incremented by exactly 1,
and no delivery attempt for it appears in the cycle's trace; (ii) for a
due pending notification of an inactive subject starting at 0 attempts,
three cycle-plus-retry-sweep rounds leave it failed with attempts = 3,
a state the retry sweep never changes again. -/
theorem C10_inactive_subject_dead_end :
    (∀ (users : Nat → User) (sendResult : Notification → Option String)
        (now : Int) (store : List Notification) (n : Notification),
      n ∈ store → (store.map Notification.nid).Nodup →
      (users n.userId).isActive = false →
      n ∈ selectPending now store →
      markAsFailed "User is inactive" n ∈
          (processPendingNotifications false true users sendResult now store).1 ∧
        Ev.sendAttempt n.nid ∉
          (processPendingNotifications false true users sendResult now store).2.2) ∧
    (∀ (users : Nat → User) (sendResult : Notification → Option String)
        (now : Int) (n : Notification),
      n.status = NStatus.pending → n.scheduledFor ≤ now →
      (users n.userId).isActive = false → n.attempts = 0 →
      dispatchThenSweep users sendResult now
          (dispatchThenSweep users sendResult now
            (dispatchThenSweep users sendResult now [n])) =
        [{ n with
            status := NStatus.failed
            error := some "User is inactive"
            attempts := 3 }] ∧
      retryStore now
          [{ n with
              status := NStatus.failed
              error := some "User is inactive"
              attempts := 3 }] =
        [{ n with
            status := NStatus.failed
            error := some "User is inactive"
            attempts := 3 }]) := by
  constructor
  · intro users sendResult now store n hmem hnodup hinact hsel
    have hsub : List.Sublist (selectPending now store) store :=
      (List.take_sublist 50 _).trans (List.filter_sublist store)
    have hnodupsel : ((selectPending now store).map Notification.nid).Nodup :=
      hnodup.sublist (hsub.map Notification.nid)
    have hnid : n.nid ∈ store.map Notification.nid :=
      List.mem_map_of_mem Notification.nid hmem
    have h := processList_inactive_marks users sendResult now
      (selectPending now store) store n hsel hnodupsel hinact hnid
    simpa [processPendingNotifications] using h
  · intro users sendResult now n h1 h2 h3 h4
    have hcycle : ∀ m : Notification, m.status = NStatus.pending →
        m.scheduledFor ≤ now → (users m.userId).isActive = false →
        (processPendingNotifications false true users sendResult now [m]).1 =
          [markAsFailed "User is inactive" m] := by
      intro m hm1 hm2 hm3
      simp [processPendingNotifications, selectPending, hm1, hm2, processList,
        hm3, saveNotif]
    have r1 : dispatchThenSweep users sendResult now [n] =
        [{ n with
            status := NStatus.pending
            error := some "User is inactive"
            attempts := 1 }] := by
      rw [dispatchThenSweep, hcycle n h1 h2 h3]
      simp [retryFailedNotifications, retryStore, retrySelected, markAsFailed,
        h2, h4]
    have r2 : dispatchThenSweep users sendResult now
        [{ n with
            status := NStatus.pending
            error := some "User is inactive"
            attempts := 1 }] =
        [{ n with
            status := NStatus.pending
            error := some "User is inactive"
            attempts := 2 }] := by
      rw [dispatchThenSweep, hcycle
        { n with
            status := NStatus.pending
            error := some "User is inactive"
            attempts := 1 } rfl h2 h3]
      simp [retryFailedNotifications, retryStore, retrySelected, markAsFailed, h2]
    have r3 : dispatchThenSweep users sendResult now
        [{ n with
            status := NStatus.pending
            error := some "User is inactive"
            attempts := 2 }] =
        [{ n with
            status := NStatus.failed
            error := some "User is inactive"
            attempts := 3 }] := by
      rw [dispatchThenSweep, hcycle
        { n with
            status := NStatus.pending
            error := some "User is inactive"
            attempts := 2 } rfl h2 h3]
      simp [retryFailedNotifications, retryStore, retrySelected, markAsFailed, h2]
    refine ⟨by rw [r1, r2, r3], ?_⟩
    simp [retryStore, retrySelected]

/-- C10 witness: the theorem applied to a concrete one-element store
whose subject is inactive. -/
theorem C10_inactive_subject_witness :
    (markAsFailed "User is inactive" samplePendingNotif ∈
      (processPendingNotifications false true inactiveUsersFn (fun _ => none)
        100 [samplePendingNotif]).1) ∧
    dispatchThenSweep inactiveUsersFn (fun _ => none) 100
        (dispatchThenSweep inactiveUsersFn (fun _ => none) 100
          (dispatchThenSweep inactiveUsersFn (fun _ => none) 100
            [samplePendingNotif])) =
      [{ samplePendingNotif with
          status := NStatus.failed
          error := some "User is inactive"
          attempts := 3 }] :=
  ⟨(C10_inactive_subject_dead_end.1 inactiveUsersFn (fun _ => none) 100
      [samplePendingNotif] samplePendingNotif (by simp) (by simp) rfl
      (by decide)).1,
    (C10_inactive_subject_dead_end.2 inactiveUsersFn (fun _ => none) 100
      samplePendingNotif rfl (by decide) rfl rfl).1⟩

end VuLms
